import Mathlib

set_option maxRecDepth 16384

/-
Verification development for the СКК assistant (src/chats.py).

Python strings are modelled as lists of characters (`Str`), file contents as a
map from a path to an optional list of lines, and the generative API as an
oracle from the message list to `Except String Str` (exception or completion).
Similarity scores, Python floats of the form 2*M/T, are modelled as rationals.
Functions whose Python originals perform I/O (the knowledge-base loader, the
API call, the assistant facade) take the file system / API oracle as an
explicit argument and additionally return the number of file reads and API
invocations they perform, so that "without touching the knowledge base" and
"without calling the API" are statable.
-/

namespace Chats

/-- Model of a Python text string: its list of characters. -/
abbrev Str := List Char

/-- Model of a character being an ASCII decimal digit, as tested by
`str.isdigit` on the enumeration prefixes handled here. -/
def isDigitCh (c : Char) : Bool := c.isDigit

/-- Characters removed by Python `str.strip()` (ASCII whitespace). -/
def isPySpace (c : Char) : Bool :=
  c = ' ' || c = '\t' || c = '\n' || c = '\x0d' || c = '\x0b' || c = '\x0c'

/-- Model of Python `str.strip()`: drop whitespace from both ends. -/
def pyStrip (s : Str) : Str :=
  ((s.dropWhile isPySpace).reverse.dropWhile isPySpace).reverse

/-- Model of Python `str.lower()`, character-wise, covering the ASCII and
Cyrillic letters this program manipulates. -/
def pyCharLower (c : Char) : Char :=
  if 'A' ≤ c ∧ c ≤ 'Z' then Char.ofNat (c.toNat + 32)
  else if 'А' ≤ c ∧ c ≤ 'Я' then Char.ofNat (c.toNat + 32)
  else if c = 'Ё' then 'ё'
  else c

/-- Model of Python `str.lower()` on a whole string. -/
def pyLower (s : Str) : Str := s.map pyCharLower

/-- The two-character pattern searched for by `clean_response`. -/
def dotSpace : Str := ['.', ' ']

/-- Model of the Python substring test `needle in hay`. -/
def strIn (needle : Str) : Str → Bool
  | [] => needle.isEmpty
  | c :: rest => needle.isPrefixOf (c :: rest) || strIn needle rest

/-- Model of `answer.split(". ", 1)[1]`: everything after the first
occurrence of the two-character pattern.  On a string with no occurrence it
returns `[]`; `clean_response` only reaches it under its guard, which
guarantees an occurrence. -/
def afterFirstDotSpace : Str → Str
  | [] => []
  | c :: rest =>
    if dotSpace.isPrefixOf (c :: rest) then rest.tail else afterFirstDotSpace rest

-- Constants of src/chats.py.

/-- System prompt constant `SYSTEM_PROMPT` of src/chats.py. -/
def SYSTEM_PROMPT : Str :=
  "Ты — ассистент СКК. Отвечай кратко. Если информации нет, скажи об этом.".toList

/-- Default refusal string `DEFAULT_RESPONSE` of src/chats.py. -/
def DEFAULT_RESPONSE : Str :=
  "Извините, я не нашел ответа на ваш вопрос.".toList

/-- Threshold `SIMILARITY_GOOD` of src/chats.py. -/
def SIMILARITY_GOOD : ℚ := 0.6

/-- Threshold `SIMILARITY_PARTIAL` of src/chats.py. -/
def SIMILARITY_PARTIAL : ℚ := 0.4

/-- Cache capacity `CACHE_SIZE` of src/chats.py. -/
def CACHE_SIZE : Nat := 256

/-- Transcription of `clean_response` (src/chats.py:25-29): if the answer is
nonempty, begins with a digit, and `". "` occurs in its first five characters,
drop everything through the first `". "`; otherwise return it unchanged. -/
def clean_response (answer : Str) : Str :=
  match answer with
  | [] => answer
  | c :: _ =>
    if isDigitCh c && strIn dotSpace (answer.take 5) then afterFirstDotSpace answer
    else answer

/-- Index of the first occurrence of `". "` in a string, if any. -/
def dotSpaceIdx : Str → Option Nat
  | [] => none
  | c :: rest =>
    if dotSpace.isPrefixOf (c :: rest) then some 0 else (dotSpaceIdx rest).map (· + 1)

/-- Modelled from the spec: the enumeration-prefix-stripping rule as the spec
words it — when the answer begins with a digit and the first `". "` occurrence
starts within the first five characters (start index at most 3), everything up
to and including that first `". "` is removed. -/
def specEnumStrip (s : Str) : Str :=
  match s.head?, dotSpaceIdx s with
  | some c, some i => if isDigitCh c && decide (i ≤ 3) then s.drop (i + 2) else s
  | _, _ => s

/-- Transcription of `should_process` (src/chats.py:41-44): strip and lower
the question, then require length above 3 and absence from the fixed
greeting/pleasantry exclusion set. -/
def should_process (question : Str) : Bool :=
  let q := pyLower (pyStrip question)
  decide (q.length > 3) &&
    !(["спасибо".toList, "привет".toList, "здравствуйте".toList].contains q)

-- The knowledge-base loader.

/-- Model of the file system: a path is mapped to the list of lines of the
file behind it (without their trailing newline, which `str.strip` would remove
anyway), or to `none` when opening the file raises FileNotFoundError. -/
abbrev FS := Str → Option (List Str)

/-- Transcription of the body of `load_qa_pairs` (src/chats.py:47-57) without
its `lru_cache` decoration (modelled separately): read both files, keep the
stripped nonempty lines, clean each answer, and zip questions with answers;
if either file is missing return the empty list. -/
def load_qa_pairs_core (fs : FS) (questions_path answers_path : Str) :
    List (Str × Str) :=
  match fs questions_path, fs answers_path with
  | some qlines, some alines =>
    let questions := (qlines.filter (fun q => !(pyStrip q).isEmpty)).map pyStrip
    let answers :=
      (alines.filter (fun a => !(pyStrip a).isEmpty)).map
        (fun a => clean_response (pyStrip a))
    List.zip questions answers
  | _, _ => []

/-- Model of the `functools.lru_cache` state sitting on `load_qa_pairs`: the
memoized argument pairs with their values, most recently used first. -/
abbrev LoadCache := List ((Str × Str) × List (Str × Str))

/-- Model of the `lru_cache(maxsize=CACHE_SIZE)`-decorated `load_qa_pairs`
(src/chats.py:47-48): on a hit, return the cached value (marking it most
recently used) without touching the file system; on a miss, run the body,
record the result, and evict beyond the capacity.  The final component counts
how many times the files were actually read (0 on a hit, 1 on a miss). -/
def load_qa_pairs (fs : FS) (cache : LoadCache) (questions_path answers_path : Str) :
    List (Str × Str) × LoadCache × Nat :=
  match cache.lookup (questions_path, answers_path) with
  | some v =>
    (v, ((questions_path, answers_path), v) ::
          cache.eraseP (fun e => e.1 == (questions_path, answers_path)), 0)
  | none =>
    let v := load_qa_pairs_core fs questions_path answers_path
    (v, (((questions_path, answers_path), v) :: cache).take CACHE_SIZE, 1)

-- The matcher, built on a model of difflib.SequenceMatcher.

/-- Length of the run of pairwise-equal characters at the heads of the two
strings. -/
def runLen : Str → Str → Nat
  | x :: xs, y :: ys => if x = y then runLen xs ys + 1 else 0
  | _, _ => 0

/-- One step of the longest-match scan at start positions `(i, j)`: the best
block is replaced only when the run at `(i, j)` is strictly longer, exactly
the strictly-greater update of difflib's scan. -/
def flmStep (a b : Str) (i : Nat) (best : Nat × Nat × Nat) (j : Nat) :
    Nat × Nat × Nat :=
  let k := runLen (a.drop i) (b.drop j)
  if best.2.2 < k then (i, j, k) else best

/-- Inner loop of the longest-match search: scan the start positions of `b`
in ascending order. -/
def flmInner (a b : Str) (i : Nat) (best : Nat × Nat × Nat) : Nat × Nat × Nat :=
  (List.range b.length).foldl (flmStep a b i) best

/-- Model of `difflib.SequenceMatcher(None, a, b).find_longest_match()` on the
strings this program produces (no junk: `isjunk=None`, and strings below the
length-200 autojunk threshold): the longest block of equal characters,
returned as (start in a, start in b, length); among maximal blocks the one
starting earliest in `a`, then earliest in `b`.  The no-junk extension loops
of the original cannot extend a maximal block and are omitted. -/
def find_longest_match (a b : Str) : Nat × Nat × Nat :=
  (List.range a.length).foldl (fun best i => flmInner a b i best) (0, 0, 0)

/-- Model of the total size of `difflib`'s matching blocks: take the longest
match, then recurse on the slices strictly to its left and to its right, as
`get_matching_blocks` does.  The fuel argument bounds the recursion depth;
`simScore` passes the combined string length, which the recursion never
exhausts. -/
def matchesTotal : Nat → Str → Str → Nat
  | 0, _, _ => 0
  | fuel + 1, a, b =>
    match find_longest_match a b with
    | (_, _, 0) => 0
    | (i, j, k + 1) =>
      (k + 1) + matchesTotal fuel (a.take i) (b.take j) +
        matchesTotal fuel (a.drop (i + (k + 1))) (b.drop (j + (k + 1)))

/-- Model of `difflib.SequenceMatcher(None, a, b).ratio()`: twice the total
matching size over the combined length, and 1 for two empty strings, as in
difflib's `_calculate_ratio`. -/
def simScore (a b : Str) : ℚ :=
  let total := a.length + b.length
  if total = 0 then 1 else 2 * (matchesTotal total a b : ℚ) / (total : ℚ)

/-- Score of one stored pair against the user question, as computed inside
the loop of `find_best_match_extended` (src/chats.py:67-71): the ratio of the
lowered, stripped user question against the lowered, stripped stored
question. -/
def pairScore (user_question : Str) (p : Str × Str) : ℚ :=
  simScore (pyStrip (pyLower user_question)) (pyStrip (pyLower p.1))

/-- Transcription of the scan loop of `find_best_match_extended`
(src/chats.py:66-80): strictly greater scores replace the best triple, and the
scan stops as soon as the freshly improved best reaches 0.95. -/
def fbmeLoop (user_question : Str) :
    List (Str × Str) → Str × Str × ℚ → Str × Str × ℚ
  | [], best => best
  | (question, answer) :: rest, best =>
    let current_score := pairScore user_question (question, answer)
    if best.2.2 < current_score then
      if (0.95 : ℚ) ≤ current_score then (question, answer, current_score)
      else fbmeLoop user_question rest (question, answer, current_score)
    else fbmeLoop user_question rest best

/-- Transcription of `find_best_match_extended` (src/chats.py:59-82): the
empty knowledge base short-circuits to the empty match with score 0, else the
scan runs from the empty best. -/
def find_best_match_extended (user_question : Str) (qa_pairs : List (Str × Str)) :
    Str × Str × ℚ :=
  if qa_pairs.isEmpty then ([], [], 0)
  else fbmeLoop user_question qa_pairs ([], [], 0)

-- The response generator.

/-- Model of the generative API: one chat-completion attempt on a message
list, yielding either the completion text or the message of the exception the
attempt raised.  The fixed request parameters (model name, temperature, token
limit, frequency penalty) are constants folded into the oracle. -/
abbrev Api := List (Str × Str) → Except Str Str

/-- Transcription of `get_api_response` (src/chats.py:84-97) without its
`lru_cache` decoration: on a successful completion return it with the
enumeration prefix cleaned, and on any exception return the default refusal
string. -/
def get_api_response (api : Api) (messages : List (Str × Str)) : Str :=
  match api messages with
  | Except.ok content => clean_response content
  | Except.error _ => DEFAULT_RESPONSE

/-- The user message of the two-message exchange built for the partial band
(src/chats.py:108-111), embedding the original question, the matched question
and the matched answer. -/
def contextMessage (user_question matched_question matched_answer : Str) : Str :=
  "Вопрос: ".toList ++ user_question ++
    "\nПохожий вопрос: ".toList ++ matched_question ++
    "\nОтвет на похожий вопрос: ".toList ++ matched_answer ++
    "\n\nДайте краткий ответ на первый вопрос, используя второй ответ как контекст.".toList

/-- The two-message exchange sent to the API in the partial band
(src/chats.py:106-112): the fixed system instruction and the context-bearing
user message. -/
def messagesFor (user_question matched_question matched_answer : Str) :
    List (Str × Str) :=
  [("system".toList, SYSTEM_PROMPT),
   ("user".toList, contextMessage user_question matched_question matched_answer)]

/-- The hedging phrase prepended to the API answer in the partial band
(src/chats.py:114). -/
def HEDGE : Str := "Возможно, это подходящий ответ:\n\n".toList

/-- Transcription of `generate_smart_response` (src/chats.py:99-116),
instrumented with the number of API invocations the taken branch performs:
scores at least `SIMILARITY_GOOD` return the matched answer verbatim; scores
at least `SIMILARITY_PARTIAL` call the API on the two-message exchange and
prepend the hedging phrase; lower scores return the default refusal string
without any API call. -/
def generate_smart_response (api : Api)
    (user_question matched_question matched_answer : Str)
    (similarity_score : ℚ) : Str × Nat :=
  if SIMILARITY_GOOD ≤ similarity_score then (matched_answer, 0)
  else if SIMILARITY_PARTIAL ≤ similarity_score then
    (HEDGE ++
      get_api_response api (messagesFor user_question matched_question matched_answer), 1)
  else (DEFAULT_RESPONSE, 0)

-- The assistant facade.

/-- The prompt-for-input string returned by `ask_assistant` on an
empty or whitespace-only question (src/chats.py:124). -/
def PLEASE_ASK : Str := "Пожалуйста, задайте вопрос.".toList

/-- Transcription of `ask_assistant` (src/chats.py:119-140), instrumented
with the number of knowledge-base loads and API invocations it performs:
reject blank questions with the prompt-for-input string, refuse questions
failing `should_process`, then load, match, and generate; an empty matched
answer short-circuits to the default refusal string. -/
def ask_assistant (fs : FS) (api : Api) (user_question : Str)
    (questions_file answers_file : Str) : Str × Nat × Nat :=
  if (pyStrip user_question).isEmpty then (PLEASE_ASK, 0, 0)
  else if !should_process user_question then (DEFAULT_RESPONSE, 0, 0)
  else
    match find_best_match_extended user_question
        (load_qa_pairs_core fs questions_file answers_file) with
    | (matched_question, matched_answer, similarity_score) =>
      if matched_answer.isEmpty then (DEFAULT_RESPONSE, 1, 0)
      else
        match generate_smart_response api user_question matched_question
            matched_answer similarity_score with
        | (answer, apiCalls) => (answer, 1, apiCalls)

-- Concrete oracles used by witnesses and counterexamples.

/-- File system with no files at all: every open raises FileNotFoundError. -/
def fsNone : FS := fun _ => none

/-- API oracle whose every call raises an exception. -/
def apiDown : Api := fun _ => Except.error "connection error".toList

/-- API oracle answering every call with a fixed completion. -/
def apiEcho : Api := fun _ => Except.ok "Ответ".toList

/-- API oracle answering every call with an enumerated completion. -/
def apiEnum : Api := fun _ => Except.ok "1. Ответ".toList

-- Helper lemmas.

/-- Folding a step function that fixes the accumulator leaves it unchanged. -/
theorem foldl_fixed {α β : Type} (f : β → α → β) (l : List α) (b : β)
    (h : ∀ x ∈ l, f b x = b) : l.foldl f b = b := by
  induction l with
  | nil => rfl
  | cons x xs ih =>
    rw [List.foldl_cons, h x (by simp)]
    exact ih (fun y hy => h y (List.mem_cons_of_mem _ hy))

theorem runLen_self (s : Str) : runLen s s = s.length := by
  induction s with
  | nil => rfl
  | cons c t ih => simp [runLen, ih]

theorem runLen_le_left : ∀ a b : Str, runLen a b ≤ a.length
  | [], _ => Nat.le_refl _
  | _ :: _, [] => Nat.zero_le _
  | x :: xs, y :: ys => by
    by_cases h : x = y
    · simpa [runLen, h] using runLen_le_left xs ys
    · simp [runLen, h]

/-- The inner longest-match scan never moves off a best block at least as
long as every run it could see. -/
theorem flmInner_fixed (a b : Str) (i : Nat) (best : Nat × Nat × Nat)
    (h : ∀ j : Nat, runLen (a.drop i) (b.drop j) ≤ best.2.2) :
    flmInner a b i best = best := by
  unfold flmInner
  exact foldl_fixed _ _ _ (fun j _ => by
    unfold flmStep
    exact if_neg (Nat.not_lt.mpr (h j)))

/-- On a string matched against itself, the very first start pair carries the
full-length run, which no later pair can strictly beat, so the longest-match
scan returns the whole string. -/
theorem find_longest_match_self (s : Str) (hs : s ≠ []) :
    find_longest_match s s = (0, 0, s.length) := by
  obtain ⟨c, t, rfl⟩ : ∃ c t, s = c :: t := by
    cases s with
    | nil => exact absurd rfl hs
    | cons c t => exact ⟨c, t, rfl⟩
  have hrun : ∀ i j : Nat,
      runLen ((c :: t : Str).drop i) ((c :: t : Str).drop j) ≤ (c :: t : Str).length :=
    fun i j => le_trans (runLen_le_left _ _) (by simp)
  have hfirst : flmInner (c :: t) (c :: t) 0 (0, 0, 0) = (0, 0, (c :: t : Str).length) := by
    unfold flmInner
    rw [show (c :: t : Str).length = t.length + 1 from rfl, List.range_succ_eq_map,
      List.foldl_cons]
    have hstep : flmStep (c :: t) (c :: t) 0 (0, 0, 0) 0 = (0, 0, t.length + 1) := by
      unfold flmStep
      simp [runLen_self]
    rw [hstep]
    exact foldl_fixed _ _ _ (fun j _ => by
      unfold flmStep
      exact if_neg (Nat.not_lt.mpr (hrun 0 j)))
  unfold find_longest_match
  rw [show (c :: t : Str).length = t.length + 1 from rfl, List.range_succ_eq_map,
    List.foldl_cons, show (t.length + 1 : Nat) = (c :: t : Str).length from rfl, hfirst]
  exact foldl_fixed _ _ _
    (fun i _ => flmInner_fixed _ _ i _ (fun j => hrun i j))

/-- The longest-match scan on two empty strings finds nothing. -/
theorem find_longest_match_nil : find_longest_match ([] : Str) [] = (0, 0, 0) := rfl

/-- Total matching size of the empty pair is zero at every fuel. -/
theorem matchesTotal_nil (fuel : Nat) : matchesTotal fuel [] [] = 0 := by
  cases fuel <;> rfl

/-- Total matching size of a string against itself is its full length. -/
theorem matchesTotal_self (s : Str) (fuel : Nat) :
    matchesTotal (fuel + 1) s s = s.length := by
  rcases eq_or_ne s [] with rfl | hs
  · rfl
  · rw [matchesTotal]
    rw [find_longest_match_self s hs]
    obtain ⟨c, t, rfl⟩ : ∃ c t, s = c :: t := by
      cases s with
      | nil => exact absurd rfl hs
      | cons c t => exact ⟨c, t, rfl⟩
    simp [matchesTotal_nil, List.drop_length]

/-- The similarity ratio of any string with itself is exactly 1. -/
theorem simScore_self (s : Str) : simScore s s = 1 := by
  rcases eq_or_ne s [] with rfl | hs
  · rfl
  · have hpos : 0 < s.length := List.length_pos.mpr hs
    have htot : s.length + s.length = (s.length + s.length - 1) + 1 := by omega
    unfold simScore
    rw [if_neg (by omega)]
    rw [htot, matchesTotal_self]
    have : ((s.length : ℚ) + (s.length : ℚ)) ≠ 0 := by
      have : (0 : ℚ) < (s.length : ℚ) := by exact_mod_cast hpos
      nlinarith
    push_cast
    field_simp
    ring

/-- A stored question equal to the user question scores exactly 1. -/
theorem pairScore_self (user_question answer : Str) :
    pairScore user_question (user_question, answer) = 1 :=
  simScore_self _

/-- The scan loop never moves off a best triple whose score no remaining pair
strictly beats. -/
theorem fbmeLoop_fixed (uq : Str) :
    ∀ (l : List (Str × Str)) (best : Str × Str × ℚ),
      (∀ p ∈ l, pairScore uq p ≤ best.2.2) → fbmeLoop uq l best = best
  | [], _, _ => rfl
  | (q, a) :: rest, best, h => by
    rw [fbmeLoop]
    rw [if_neg (not_lt.mpr (h (q, a) (by simp)))]
    exact fbmeLoop_fixed uq rest best (fun p hp => h p (List.mem_cons_of_mem _ hp))

/-- The scan stops at the first pair whose score reaches 0.95, returning that
pair, whatever follows it. -/
theorem fbmeLoop_break (uq : Str) :
    ∀ (pre : List (Str × Str)) (q a : Str) (post : List (Str × Str))
      (best : Str × Str × ℚ),
      best.2.2 < (0.95 : ℚ) →
      (∀ p ∈ pre, pairScore uq p < (0.95 : ℚ)) →
      (0.95 : ℚ) ≤ pairScore uq (q, a) →
      fbmeLoop uq (pre ++ (q, a) :: post) best = (q, a, pairScore uq (q, a))
  | [], q, a, post, best, hb, _, hq => by
    rw [List.nil_append, fbmeLoop]
    rw [if_pos (lt_of_lt_of_le hb hq), if_pos hq]
  | (pq, pa) :: pre, q, a, post, best, hb, hpre, hq => by
    have hp : pairScore uq (pq, pa) < (0.95 : ℚ) := hpre (pq, pa) (by simp)
    rw [List.cons_append, fbmeLoop]
    by_cases hlt : best.2.2 < pairScore uq (pq, pa)
    · rw [if_pos hlt, if_neg (not_le.mpr hp)]
      exact fbmeLoop_break uq pre q a post (pq, pa, pairScore uq (pq, pa)) hp
        (fun p h => hpre p (List.mem_cons_of_mem _ h)) hq
    · rw [if_neg hlt]
      exact fbmeLoop_break uq pre q a post best hb
        (fun p h => hpre p (List.mem_cons_of_mem _ h)) hq

/-- When no score reaches 0.95, the scan returns the first pair attaining the
maximum, provided that maximum strictly beats the incoming best. -/
theorem fbmeLoop_argmax (uq : Str) :
    ∀ (pre : List (Str × Str)) (q a : Str) (post : List (Str × Str))
      (best : Str × Str × ℚ),
      best.2.2 < pairScore uq (q, a) →
      pairScore uq (q, a) < (0.95 : ℚ) →
      (∀ p ∈ pre, pairScore uq p < pairScore uq (q, a)) →
      (∀ p ∈ post, pairScore uq p ≤ pairScore uq (q, a)) →
      fbmeLoop uq (pre ++ (q, a) :: post) best = (q, a, pairScore uq (q, a))
  | [], q, a, post, best, hb, hlt95, _, hpost => by
    rw [List.nil_append, fbmeLoop]
    rw [if_pos hb, if_neg (not_le.mpr hlt95)]
    exact fbmeLoop_fixed uq post (q, a, pairScore uq (q, a)) (fun p hp => hpost p hp)
  | (pq, pa) :: pre, q, a, post, best, hb, hlt95, hpre, hpost => by
    have hp : pairScore uq (pq, pa) < pairScore uq (q, a) := hpre (pq, pa) (by simp)
    rw [List.cons_append, fbmeLoop]
    by_cases hlt : best.2.2 < pairScore uq (pq, pa)
    · rw [if_pos hlt, if_neg (not_le.mpr (lt_trans hp hlt95))]
      exact fbmeLoop_argmax uq pre q a post (pq, pa, pairScore uq (pq, pa)) hp hlt95
        (fun p h => hpre p (List.mem_cons_of_mem _ h)) hpost
    · rw [if_neg hlt]
      exact fbmeLoop_argmax uq pre q a post best hb hlt95
        (fun p h => hpre p (List.mem_cons_of_mem _ h)) hpost

/-- Splitting at the first occurrence drops the characters through it. -/
theorem afterFirstDotSpace_drop :
    ∀ (s : Str) (i : Nat), dotSpaceIdx s = some i →
      afterFirstDotSpace s = s.drop (i + 2)
  | [], i, h => by simp [dotSpaceIdx] at h
  | c :: rest, i, h => by
    rw [dotSpaceIdx] at h
    by_cases hp : dotSpace.isPrefixOf (c :: rest)
    · rw [if_pos hp] at h
      obtain rfl : (0 : Nat) = i := Option.some_injective _ h
      rw [afterFirstDotSpace, if_pos hp]
      simp [List.drop_succ_cons, List.drop_one]
    · rw [if_neg hp] at h
      obtain ⟨i', hi', rfl⟩ := Option.map_eq_some'.mp h
      rw [afterFirstDotSpace, if_neg hp, afterFirstDotSpace_drop rest i' hi',
        List.drop_succ_cons]

/-- The two-character needle is a prefix of a truncated string exactly when
the truncation keeps at least two characters of a string it prefixes. -/
theorem dotSpace_isPrefixOf_take (c : Char) (rest : Str) (m : Nat) :
    dotSpace.isPrefixOf (c :: rest.take m) =
      (decide (1 ≤ m) && dotSpace.isPrefixOf (c :: rest)) := by
  cases m with
  | zero => simp [dotSpace, List.isPrefixOf]
  | succ m2 =>
    cases rest with
    | nil => simp [dotSpace, List.isPrefixOf]
    | cons d r2 => simp [dotSpace, List.isPrefixOf, List.take_succ_cons]

/-- The substring test on the first `n` characters succeeds exactly when the
first occurrence of `". "` starts early enough to fit within them. -/
theorem strIn_take_iff :
    ∀ (s : Str) (n : Nat),
      strIn dotSpace (s.take n) = true ↔
        ∃ i, dotSpaceIdx s = some i ∧ i + 2 ≤ n := by
  intro s
  induction s with
  | nil =>
    intro n
    simp [strIn, dotSpaceIdx, dotSpace]
  | cons c rest ih =>
    intro n
    cases n with
    | zero =>
      simp only [List.take_zero, strIn, dotSpace, List.isEmpty]
      constructor
      · intro h; cases h
      · rintro ⟨i, _, hle⟩; omega
    | succ m =>
      rw [List.take_succ_cons, strIn, dotSpace_isPrefixOf_take, dotSpaceIdx]
      by_cases hp : dotSpace.isPrefixOf (c :: rest)
      · rw [if_pos hp, hp]
        constructor
        · intro h
          refine ⟨0, rfl, ?_⟩
          rcases Bool.or_eq_true_iff.mp h with h1 | h2
          · have : 1 ≤ m := of_decide_eq_true (Bool.and_eq_true_iff.mp h1).1
            omega
          · obtain ⟨i', _, hle⟩ := (ih m).mp h2
            omega
        · rintro ⟨i, hi, hle⟩
          obtain rfl : (0 : Nat) = i := Option.some_injective _ hi
          refine Bool.or_eq_true_iff.mpr (Or.inl ?_)
          simp [decide_eq_true_eq]
          omega
      · rw [if_neg hp]
        have hfalse : dotSpace.isPrefixOf (c :: rest) = false :=
          Bool.eq_false_iff.mpr hp
        rw [hfalse, Bool.and_false, Bool.false_or]
        rw [ih m]
        constructor
        · rintro ⟨i', hi', hle⟩
          exact ⟨i' + 1, by rw [hi']; rfl, by omega⟩
        · rintro ⟨i, hi, hle⟩
          obtain ⟨i', hi', rfl⟩ := Option.map_eq_some'.mp hi
          exact ⟨i', hi', by omega⟩

/-- The transcribed `clean_response` computes exactly the spec-worded
stripping rule: remove through the first `". "` precisely when the answer
starts with a digit and that occurrence starts within the first five
characters. -/
theorem clean_response_eq_spec (a : Str) : clean_response a = specEnumStrip a := by
  cases a with
  | nil => rfl
  | cons c rest =>
    cases hidx : dotSpaceIdx (c :: rest) with
    | none =>
      have hfalse : strIn dotSpace ((c :: rest).take 5) = false := by
        cases hb : strIn dotSpace ((c :: rest).take 5) with
        | false => rfl
        | true =>
          obtain ⟨i, hi, _⟩ := (strIn_take_iff (c :: rest) 5).mp hb
          rw [hidx] at hi
          cases hi
      rw [clean_response, hfalse, Bool.and_false, if_neg (by simp)]
      simp [specEnumStrip, hidx]
    | some i =>
      by_cases hi3 : i ≤ 3
      · have htrue : strIn dotSpace ((c :: rest).take 5) = true :=
          (strIn_take_iff (c :: rest) 5).mpr ⟨i, hidx, by omega⟩
        rw [clean_response, htrue, Bool.and_true]
        rw [afterFirstDotSpace_drop (c :: rest) i hidx]
        simp only [specEnumStrip, List.head?_cons, hidx]
        rw [decide_eq_true hi3, Bool.and_true]
      · have hfalse : strIn dotSpace ((c :: rest).take 5) = false := by
          cases hb : strIn dotSpace ((c :: rest).take 5) with
          | false => rfl
          | true =>
            obtain ⟨i', hi', hle⟩ := (strIn_take_iff (c :: rest) 5).mp hb
            rw [hidx] at hi'
            obtain rfl : i = i' := Option.some_injective _ hi'
            omega
        rw [clean_response, hfalse, Bool.and_false, if_neg (by simp)]
        simp only [specEnumStrip, List.head?_cons, hidx]
        rw [decide_eq_false hi3, Bool.and_false, if_neg (by simp)]

/-- Whatever `dropWhile` leaves starts with a character failing the
predicate. -/
theorem head_dropWhile_not_space :
    ∀ (l : Str) (c : Char),
      (l.dropWhile isPySpace).head? = some c → isPySpace c = false
  | [], c, h => by simp [List.dropWhile] at h
  | x :: xs, c, h => by
    rw [List.dropWhile_cons] at h
    by_cases hx : isPySpace x = true
    · rw [if_pos hx] at h
      exact head_dropWhile_not_space xs c h
    · rw [if_neg hx] at h
      obtain rfl : x = c := by simpa using h
      exact Bool.eq_false_iff.mpr hx

/-- A stripped string never ends in whitespace. -/
theorem pyStrip_getLast_not_space (s : Str) (c : Char)
    (h : (pyStrip s).getLast? = some c) : isPySpace c = false := by
  unfold pyStrip at h
  rw [List.getLast?_reverse] at h
  exact head_dropWhile_not_space _ c h

/-- The first-occurrence index really points at a `". "` occurrence. -/
theorem dotSpaceIdx_charAt :
    ∀ (s : Str) (i : Nat), dotSpaceIdx s = some i →
      s[i]? = some '.' ∧ s[i + 1]? = some ' '
  | [], i, h => by simp [dotSpaceIdx] at h
  | c :: rest, i, h => by
    rw [dotSpaceIdx] at h
    by_cases hp : dotSpace.isPrefixOf (c :: rest)
    · rw [if_pos hp] at h
      obtain rfl : (0 : Nat) = i := Option.some_injective _ h
      cases rest with
      | nil => simp [dotSpace, List.isPrefixOf] at hp
      | cons d r2 =>
        simp only [dotSpace, List.isPrefixOf, Bool.and_eq_true, beq_iff_eq] at hp
        obtain ⟨rfl, rfl, -⟩ := hp
        exact ⟨by simp, by simp⟩
    · rw [if_neg hp] at h
      obtain ⟨i', hi', rfl⟩ := Option.map_eq_some'.mp h
      have ih := dotSpaceIdx_charAt rest i' hi'
      rw [List.getElem?_cons_succ, show i' + 1 + 1 = i' + 2 from rfl]
      rw [show ((c :: rest : Str)[i' + 2]? = some ' ') =
        ((c :: rest : Str)[(i' + 1) + 1]? = some ' ') from rfl, List.getElem?_cons_succ]
      exact ih

/-- A nonempty string not ending in whitespace survives `clean_response`
nonempty: the split can only empty a string whose `". "` sits at its very
end, which would make it end in a space. -/
theorem clean_response_ne_nil (t : Str) (hne : t ≠ [])
    (hlast : ∀ c, t.getLast? = some c → isPySpace c = false) :
    clean_response t ≠ [] := by
  cases t with
  | nil => exact absurd rfl hne
  | cons c rest =>
    rw [clean_response]
    by_cases hg : (isDigitCh c && strIn dotSpace ((c :: rest).take 5)) = true
    · rw [if_pos hg]
      have hstr : strIn dotSpace ((c :: rest).take 5) = true :=
        (Bool.and_eq_true_iff.mp hg).2
      obtain ⟨i, hidx, -⟩ := (strIn_take_iff (c :: rest) 5).mp hstr
      rw [afterFirstDotSpace_drop (c :: rest) i hidx]
      intro hdrop
      have hlen : (c :: rest : Str).length ≤ i + 2 :=
        List.drop_eq_nil_iff.mp hdrop
      have hchar := (dotSpaceIdx_charAt (c :: rest) i hidx).2
      obtain ⟨hlt, -⟩ := List.getElem?_eq_some.mp hchar
      have hEq : (c :: rest : Str).length = i + 2 := by omega
      have hlast2 : (c :: rest : Str).getLast? = some ' ' := by
        rw [List.getLast?_eq_getElem?, hEq, show i + 2 - 1 = i + 1 from rfl]
        exact hchar
      have hfalse := hlast ' ' hlast2
      simp [isPySpace] at hfalse
    · rw [if_neg hg]
      exact hne

/-- Every answer the loader stores is a nonempty string. -/
theorem load_answer_ne_nil (fs : FS) (qp ap : Str) :
    ∀ p ∈ load_qa_pairs_core fs qp ap, p.2 ≠ [] := by
  intro p hp
  cases hq : fs qp with
  | none =>
    rw [show load_qa_pairs_core fs qp ap = [] from by
      unfold load_qa_pairs_core; rw [hq]] at hp
    cases hp
  | some qlines =>
    cases ha : fs ap with
    | none =>
      rw [show load_qa_pairs_core fs qp ap = [] from by
        unfold load_qa_pairs_core; rw [hq, ha]] at hp
      cases hp
    | some alines =>
      rw [show load_qa_pairs_core fs qp ap =
          List.zip ((qlines.filter (fun q => !(pyStrip q).isEmpty)).map pyStrip)
            ((alines.filter (fun a => !(pyStrip a).isEmpty)).map
              (fun a => clean_response (pyStrip a))) from by
        unfold load_qa_pairs_core; rw [hq, ha]] at hp
      obtain ⟨p1, p2⟩ := p
      have hmem := (List.of_mem_zip hp).2
      simp only [List.mem_map] at hmem
      obtain ⟨a0, ha0, heq⟩ := hmem
      have hfil := (List.mem_filter.mp ha0).2
      have hne : pyStrip a0 ≠ [] := by
        intro hnil
        rw [hnil] at hfil
        simp at hfil
      rw [← heq]
      exact clean_response_ne_nil (pyStrip a0) hne
        (fun c hc => pyStrip_getLast_not_space a0 c hc)

/-- Zipping preserves positional lookups present in both lists. -/
theorem zip_getElem_some {α β : Type} :
    ∀ (l1 : List α) (l2 : List β) (n : Nat) (x : α) (y : β),
      l1[n]? = some x → l2[n]? = some y → (l1.zip l2)[n]? = some (x, y)
  | [], _, n, x, _, hx, _ => by simp at hx
  | _ :: _, [], n, _, y, _, hy => by simp at hy
  | a :: t1, b :: t2, 0, x, y, hx, hy => by
    obtain rfl : a = x := by simpa using hx
    obtain rfl : b = y := by simpa using hy
    simp [List.zip_cons_cons]
  | a :: t1, b :: t2, n + 1, x, y, hx, hy => by
    rw [List.getElem?_cons_succ] at hx hy
    rw [List.zip_cons_cons, List.getElem?_cons_succ]
    exact zip_getElem_some t1 t2 n x y hx hy

-- Claim C1.

/-- C1: for every user question, matched question, matched answer and
similarity score s, the response generator follows the three-band policy
exactly: at s ≥ 0.6 it returns the matched answer verbatim; at
0.4 ≤ s < 0.6 it calls the generative API once with the two-message exchange
and returns the API answer prefixed with the hedging phrase; at s < 0.4 it
returns the fixed default refusal string with zero API calls. -/
theorem C1_three_band_policy (api : Api) (uq mq ma : Str) (s : ℚ) :
    (SIMILARITY_GOOD ≤ s → generate_smart_response api uq mq ma s = (ma, 0)) ∧
    (SIMILARITY_PARTIAL ≤ s → s < SIMILARITY_GOOD →
      generate_smart_response api uq mq ma s =
        (HEDGE ++ get_api_response api (messagesFor uq mq ma), 1)) ∧
    (s < SIMILARITY_PARTIAL →
      generate_smart_response api uq mq ma s = (DEFAULT_RESPONSE, 0)) := by
  refine ⟨fun h => ?_, fun h1 h2 => ?_, fun h => ?_⟩
  · rw [generate_smart_response, if_pos h]
  · rw [generate_smart_response, if_neg (not_le.mpr h2), if_pos h1]
  · have hpg : SIMILARITY_PARTIAL < SIMILARITY_GOOD := by
      norm_num [SIMILARITY_PARTIAL, SIMILARITY_GOOD]
    rw [generate_smart_response, if_neg (not_le.mpr (lt_trans h hpg)),
      if_neg (not_le.mpr h)]

/-- Witness for C1 at the concrete score 1/2 in the partial band. -/
theorem C1_three_band_policy_witness :
    SIMILARITY_PARTIAL ≤ (1/2 : ℚ) ∧ (1/2 : ℚ) < SIMILARITY_GOOD ∧
    generate_smart_response apiEcho "в".toList "п".toList "о".toList (1/2) =
      (HEDGE ++ get_api_response apiEcho (messagesFor "в".toList "п".toList "о".toList),
        1) :=
  ⟨by norm_num [SIMILARITY_PARTIAL], by norm_num [SIMILARITY_GOOD],
    (C1_three_band_policy apiEcho "в".toList "п".toList "о".toList (1/2)).2.1
      (by norm_num [SIMILARITY_PARTIAL]) (by norm_num [SIMILARITY_GOOD])⟩

-- Claim C3.

/-- C3 counterexample: in the partial band with a failing API, the
assistant's answer is NOT the fixed default refusal string — it is the
hedging phrase with the refusal appended, refuting the claim as stated. -/
theorem C3_bare_refusal_refuted :
    (generate_smart_response apiDown "а".toList "б".toList "в".toList (1/2)).1 ≠
        DEFAULT_RESPONSE ∧
    (generate_smart_response apiDown "а".toList "б".toList "в".toList (1/2)).1 =
        HEDGE ++ DEFAULT_RESPONSE := by
  have h : generate_smart_response apiDown "а".toList "б".toList "в".toList (1/2) =
      (HEDGE ++ DEFAULT_RESPONSE, 1) := by
    rw [generate_smart_response,
      if_neg (not_le.mpr (by norm_num [SIMILARITY_GOOD] : (1/2 : ℚ) < SIMILARITY_GOOD)),
      if_pos (by norm_num [SIMILARITY_PARTIAL] : SIMILARITY_PARTIAL ≤ (1/2 : ℚ))]
    rfl
  rw [h]
  exact ⟨by decide, rfl⟩

/-- C3 amended: when the similarity score is in the partial band and the
generative API call fails with any exception, the assistant's answer is the
hedging phrase followed by the fixed default refusal string — the failure is
absorbed and substituted, never propagated to the caller. -/
theorem C3_api_failure_hedged (api : Api) (uq mq ma : Str) (s : ℚ) (e : Str)
    (h1 : SIMILARITY_PARTIAL ≤ s) (h2 : s < SIMILARITY_GOOD)
    (herr : api (messagesFor uq mq ma) = Except.error e) :
    generate_smart_response api uq mq ma s = (HEDGE ++ DEFAULT_RESPONSE, 1) := by
  rw [generate_smart_response, if_neg (not_le.mpr h2), if_pos h1,
    get_api_response, herr]

/-- Witness for C3's amended theorem on an always-failing API oracle. -/
theorem C3_api_failure_hedged_witness :
    generate_smart_response apiDown "в1".toList "в2".toList "о".toList (1/2) =
      (HEDGE ++ DEFAULT_RESPONSE, 1) :=
  C3_api_failure_hedged apiDown "в1".toList "в2".toList "о".toList (1/2)
    "connection error".toList
    (by norm_num [SIMILARITY_PARTIAL]) (by norm_num [SIMILARITY_GOOD]) rfl

-- Claim C2.

/-- File system used to exhibit the loader's multi-digit stripping. -/
def fsC2 : FS := fun path =>
  if path = "knowledge.txt".toList then some ["В1".toList, "В2".toList]
  else if path = "knowledge1.txt".toList then
    some ["10. Text".toList, "42. Special code".toList]
  else none

/-- C2 counterexample: the answers "10. Text" and "42. Special code" are NOT
stored as-is — `". "` does occur within their first five characters, so the
loader strips both, refuting the claim at these explicit inputs. -/
theorem C2_multidigit_strip_refuted :
    clean_response "10. Text".toList ≠ "10. Text".toList ∧
    clean_response "10. Text".toList = "Text".toList ∧
    clean_response "42. Special code".toList ≠ "42. Special code".toList ∧
    clean_response "42. Special code".toList = "Special code".toList ∧
    load_qa_pairs_core fsC2 "knowledge.txt".toList "knowledge1.txt".toList =
      [("В1".toList, "Text".toList), ("В2".toList, "Special code".toList)] :=
  ⟨by decide, by decide, by decide, by decide, by decide⟩

/-- C2 amended: the prefix stripping fires exactly when the answer begins
with a digit and the first `". "` occurrence starts within the first five
characters (start index at most 3), so leading numbers of up to three digits
are stripped — "1. Answer text", "10. Text" and "42. Special code" all lose
their prefixes — while a number of four or more digits such as "1000. Text"
is stored as-is. -/
theorem C2_enum_strip_amended :
    (∀ a : Str, clean_response a = specEnumStrip a) ∧
    clean_response "1. Answer text".toList = "Answer text".toList ∧
    clean_response "10. Text".toList = "Text".toList ∧
    clean_response "42. Special code".toList = "Special code".toList ∧
    clean_response "1000. Text".toList = "1000. Text".toList :=
  ⟨clean_response_eq_spec, by decide, by decide, by decide, by decide⟩

-- Claim C10.

/-- C10: every successful API completion is passed through the same
enumeration-prefix-stripping rule as stored answers (remove through the first
`". "` when the completion starts with a digit and the occurrence begins
within the first five characters), and in the partial band the hedging phrase
is prepended to that cleaned completion. -/
theorem C10_api_completion_cleaned (api : Api) (uq mq ma : Str) (s : ℚ) (c : Str)
    (hok : api (messagesFor uq mq ma) = Except.ok c) :
    get_api_response api (messagesFor uq mq ma) = specEnumStrip c ∧
    (SIMILARITY_PARTIAL ≤ s → s < SIMILARITY_GOOD →
      (generate_smart_response api uq mq ma s).1 = HEDGE ++ specEnumStrip c) := by
  have hget : get_api_response api (messagesFor uq mq ma) = specEnumStrip c := by
    rw [get_api_response, hok]
    exact clean_response_eq_spec c
  refine ⟨hget, fun h1 h2 => ?_⟩
  rw [generate_smart_response, if_neg (not_le.mpr h2), if_pos h1]
  rw [show (HEDGE ++ get_api_response api (messagesFor uq mq ma),
      (1 : Nat)).1 = HEDGE ++ get_api_response api (messagesFor uq mq ma) from rfl,
    hget]

/-- Witness for C10 on an oracle answering with an enumerated completion. -/
theorem C10_api_completion_cleaned_witness :
    get_api_response apiEnum (messagesFor "в".toList "п".toList "о".toList) =
      specEnumStrip "1. Ответ".toList ∧
    specEnumStrip "1. Ответ".toList = "Ответ".toList ∧
    (generate_smart_response apiEnum "в".toList "п".toList "о".toList (1/2)).1 =
      HEDGE ++ specEnumStrip "1. Ответ".toList :=
  ⟨(C10_api_completion_cleaned apiEnum "в".toList "п".toList "о".toList (1/2)
      "1. Ответ".toList rfl).1,
    by decide,
    (C10_api_completion_cleaned apiEnum "в".toList "п".toList "о".toList (1/2)
      "1. Ответ".toList rfl).2
      (by norm_num [SIMILARITY_PARTIAL]) (by norm_num [SIMILARITY_GOOD])⟩

-- Claim C7.

/-- Retained lines of a knowledge file: the stripped nonempty lines, in
order (the spec's "retained (non-empty, trimmed) line"). -/
def retainedLines (lines : List Str) : List Str :=
  (lines.filter (fun l => !(pyStrip l).isEmpty)).map pyStrip

/-- Retained answer lines additionally pass through the enumeration-prefix
cleaning. -/
def retainedAnswers (lines : List Str) : List Str :=
  (lines.filter (fun l => !(pyStrip l).isEmpty)).map
    (fun l => clean_response (pyStrip l))

/-- With both files present the loader is exactly the positional zip of the
retained question lines with the retained answer lines. -/
theorem load_eq_zip (fs : FS) (qp ap : Str) (qlines alines : List Str)
    (hq : fs qp = some qlines) (ha : fs ap = some alines) :
    load_qa_pairs_core fs qp ap =
      List.zip (retainedLines qlines) (retainedAnswers alines) := by
  unfold load_qa_pairs_core retainedLines retainedAnswers
  rw [hq, ha]

/-- C7: the loader pairs the Nth retained question line with the Nth
retained answer line, and a mismatch in retained line counts silently
truncates the result to the shorter file, surfacing no error. -/
theorem C7_zip_truncation (fs : FS) (qp ap : Str) (qlines alines : List Str)
    (hq : fs qp = some qlines) (ha : fs ap = some alines) :
    (load_qa_pairs_core fs qp ap).length =
      min (retainedLines qlines).length (retainedAnswers alines).length ∧
    ∀ (n : Nat) (q a2 : Str),
      (retainedLines qlines)[n]? = some q →
      (retainedAnswers alines)[n]? = some a2 →
      (load_qa_pairs_core fs qp ap)[n]? = some (q, a2) := by
  have hload := load_eq_zip fs qp ap qlines alines hq ha
  constructor
  · rw [hload, List.length_zip]
  · intro n q a2 hq2 ha2
    rw [hload]
    exact zip_getElem_some _ _ n q a2 hq2 ha2

/-- File system for the C7 witness: three retained question lines against
two retained answer lines. -/
def fsC7 : FS := fun path =>
  if path = "knowledge.txt".toList then
    some [" В1 ".toList, "".toList, "В2".toList, "В3".toList]
  else if path = "knowledge1.txt".toList then
    some ["1. О1".toList, " О2 ".toList]
  else none

/-- Witness for C7: the mismatched files truncate to two pairs and position
1 pairs the second retained question with the second cleaned answer. -/
theorem C7_zip_truncation_witness :
    (load_qa_pairs_core fsC7 "knowledge.txt".toList "knowledge1.txt".toList).length =
      min (retainedLines [" В1 ".toList, "".toList, "В2".toList, "В3".toList]).length
        (retainedAnswers ["1. О1".toList, " О2 ".toList]).length ∧
    (load_qa_pairs_core fsC7 "knowledge.txt".toList "knowledge1.txt".toList)[1]? =
      some ("В2".toList, "О2".toList) :=
  ⟨(C7_zip_truncation fsC7 "knowledge.txt".toList "knowledge1.txt".toList
      [" В1 ".toList, "".toList, "В2".toList, "В3".toList]
      ["1. О1".toList, " О2 ".toList] (by decide) (by decide)).1,
    (C7_zip_truncation fsC7 "knowledge.txt".toList "knowledge1.txt".toList
      [" В1 ".toList, "".toList, "В2".toList, "В3".toList]
      ["1. О1".toList, " О2 ".toList] (by decide) (by decide)).2
      1 "В2".toList "О2".toList (by decide) (by decide)⟩

-- Claim C8.

/-- C8: with either knowledge file missing the loader returns the empty
list rather than raising, and on any nonblank question the assistant then
answers with the default refusal string. -/
theorem C8_missing_files (fs : FS) (api : Api) (uq qp ap : Str)
    (hmiss : fs qp = none ∨ fs ap = none) :
    load_qa_pairs_core fs qp ap = [] ∧
    ((pyStrip uq).isEmpty = false →
      (ask_assistant fs api uq qp ap).1 = DEFAULT_RESPONSE) := by
  have hload : load_qa_pairs_core fs qp ap = [] := by
    unfold load_qa_pairs_core
    rcases hmiss with h | h
    · rw [h]
    · cases hq2 : fs qp with
      | none => rfl
      | some ql => rw [h]
  refine ⟨hload, fun hne => ?_⟩
  rw [ask_assistant, if_neg (by simp [hne])]
  by_cases hsp : should_process uq = true
  · rw [if_neg (by simp [hsp]), hload]
    rfl
  · rw [if_pos (by rw [Bool.eq_false_iff.mpr hsp]; rfl)]

/-- Witness for C8: every file is missing, and a processable question gets
the default refusal string. -/
theorem C8_missing_files_witness :
    load_qa_pairs_core fsNone "knowledge.txt".toList "knowledge1.txt".toList = [] ∧
    (ask_assistant fsNone apiDown "расписание".toList "knowledge.txt".toList
        "knowledge1.txt".toList).1 = DEFAULT_RESPONSE :=
  ⟨(C8_missing_files fsNone apiDown "расписание".toList "knowledge.txt".toList
      "knowledge1.txt".toList (Or.inl rfl)).1,
    (C8_missing_files fsNone apiDown "расписание".toList "knowledge.txt".toList
      "knowledge1.txt".toList (Or.inl rfl)).2 (by decide)⟩

-- Claim C9.

/-- A cache hit reads nothing and returns the cached value, reordered to the
front. -/
theorem load_cache_hit (fs : FS) (cache : LoadCache) (qp ap : Str)
    (v : List (Str × Str)) (h : cache.lookup (qp, ap) = some v) :
    load_qa_pairs fs cache qp ap =
      (v, ((qp, ap), v) :: cache.eraseP (fun e => e.1 == (qp, ap)), 0) := by
  unfold load_qa_pairs
  rw [h]

/-- After any loader call, its path pair is present in the returned cache and
maps to the returned value. -/
theorem load_key_present (fs : FS) (cache : LoadCache) (qp ap : Str) :
    ((load_qa_pairs fs cache qp ap).2.1).lookup (qp, ap) =
      some (load_qa_pairs fs cache qp ap).1 := by
  unfold load_qa_pairs
  cases hl : cache.lookup (qp, ap) with
  | some v => simp [List.lookup]
  | none => simp [CACHE_SIZE, List.take_succ_cons, List.lookup]

/-- C9: a second loader call with the same path pair returns the same
in-memory sequence as the first and performs zero file reads, whatever the
file system looks like by then — a mutation of the files between the calls is
not observed. -/
theorem C9_loader_cache (fs1 fs2 : FS) (cache : LoadCache) (qp ap : Str) :
    (load_qa_pairs fs2 (load_qa_pairs fs1 cache qp ap).2.1 qp ap).1 =
      (load_qa_pairs fs1 cache qp ap).1 ∧
    (load_qa_pairs fs2 (load_qa_pairs fs1 cache qp ap).2.1 qp ap).2.2 = 0 := by
  have h2 := load_cache_hit fs2 (load_qa_pairs fs1 cache qp ap).2.1 qp ap
    (load_qa_pairs fs1 cache qp ap).1 (load_key_present fs1 cache qp ap)
  exact ⟨by rw [h2], by rw [h2]⟩

-- Claim C5.

/-- C5 counterexample: the empty input has trimmed length 0 ≤ 3, yet the
assistant answers with the prompt-for-input string, not the default refusal
string, refuting the claim at this explicit input. -/
theorem C5_blank_input_refuted :
    (ask_assistant fsNone apiDown "".toList "knowledge.txt".toList
        "knowledge1.txt".toList).1 ≠ DEFAULT_RESPONSE ∧
    ask_assistant fsNone apiDown "".toList "knowledge.txt".toList
        "knowledge1.txt".toList = (PLEASE_ASK, 0, 0) :=
  ⟨by decide, by decide⟩

/-- C5 amended: every input whose trimmed form is nonempty of length at most
3, and every input case-insensitively matching the fixed greeting set, gets
the default refusal string from the assistant with zero knowledge-base loads
and zero API calls; a whitespace-only input instead gets the fixed
prompt-for-input string. -/
theorem C5_prefilter_amended (fs : FS) (api : Api) (uq qp ap : Str)
    (h : (pyStrip uq ≠ [] ∧ (pyStrip uq).length ≤ 3) ∨
      pyLower (pyStrip uq) ∈
        ["спасибо".toList, "привет".toList, "здравствуйте".toList]) :
    ask_assistant fs api uq qp ap = (DEFAULT_RESPONSE, 0, 0) := by
  have hne : (pyStrip uq).isEmpty = false := by
    rcases h with ⟨hne2, -⟩ | hmem
    · cases e : (pyStrip uq).isEmpty with
      | false => rfl
      | true => exact absurd (List.isEmpty_iff.mp e) hne2
    · cases e : (pyStrip uq).isEmpty with
      | false => rfl
      | true =>
        rw [List.isEmpty_iff.mp e] at hmem
        rw [show pyLower [] = [] from rfl] at hmem
        simp only [List.mem_cons, List.not_mem_nil, or_false] at hmem
        rcases hmem with h1 | h1 | h1 <;> simp at h1
  have hsp : should_process uq = false := by
    unfold should_process
    show (decide ((pyLower (pyStrip uq)).length > 3) &&
      !(["спасибо".toList, "привет".toList, "здравствуйте".toList].contains
        (pyLower (pyStrip uq)))) = false
    rcases h with ⟨-, hlen⟩ | hmem
    · have hq3 : decide ((pyLower (pyStrip uq)).length > 3) = false :=
        decide_eq_false (by rw [pyLower, List.length_map]; omega)
      rw [hq3, Bool.false_and]
    · simp only [List.mem_cons, List.not_mem_nil, or_false] at hmem
      rcases hmem with h1 | h1 | h1 <;> rw [h1] <;> decide
  rw [ask_assistant, if_neg (by simp [hne]), if_pos (by rw [hsp]; rfl)]

/-- Witness for C5's amended theorem: a three-character question and a
cased, padded greeting both get the refusal with zero loads and calls. -/
theorem C5_prefilter_amended_witness :
    ask_assistant fsNone apiDown "abc".toList "knowledge.txt".toList
        "knowledge1.txt".toList = (DEFAULT_RESPONSE, 0, 0) ∧
    ask_assistant fsNone apiDown " Привет ".toList "knowledge.txt".toList
        "knowledge1.txt".toList = (DEFAULT_RESPONSE, 0, 0) :=
  ⟨C5_prefilter_amended fsNone apiDown "abc".toList "knowledge.txt".toList
      "knowledge1.txt".toList (Or.inl ⟨by decide, by decide⟩),
    C5_prefilter_amended fsNone apiDown " Привет ".toList "knowledge.txt".toList
      "knowledge1.txt".toList (Or.inr (by decide))⟩

-- Claim C4.

/-- The pair score is a plain similarity ratio of the normalized texts. -/
theorem pairScore_eq_simScore (uq q a : Str) :
    pairScore uq (q, a) = simScore (pyStrip (pyLower uq)) (pyStrip (pyLower q)) :=
  rfl

/-- Evaluation rule for the similarity ratio on a nonempty combined length:
it is twice the total matching size over the combined length. -/
theorem simScore_eval (a b : Str) (t m : Nat) (ht : a.length + b.length = t)
    (hm : matchesTotal t a b = m) (htne : t ≠ 0) :
    simScore a b = 2 * (m : ℚ) / (t : ℚ) := by
  show (if a.length + b.length = 0 then (1 : ℚ)
    else 2 * (matchesTotal (a.length + b.length) a b : ℚ) /
      ((a.length + b.length : Nat) : ℚ)) = 2 * (m : ℚ) / (t : ℚ)
  rw [ht, if_neg htne, hm]

/-- C4 counterexample: a knowledge base whose single pair scores exactly 0.0
against the user question — the strictly-greater update never fires, so the
matcher returns the empty match, not the first-seen pair, refuting the
claimed tie-break at this explicit input. -/
theorem C4_zero_score_refuted :
    find_best_match_extended "abcd".toList [("xyz".toList, "ans".toList)] =
      ([], [], 0) ∧
    (find_best_match_extended "abcd".toList [("xyz".toList, "ans".toList)]).2.1 ≠
      "ans".toList ∧
    pairScore "abcd".toList ("xyz".toList, "ans".toList) = 0 := by
  have hscore : pairScore "abcd".toList ("xyz".toList, "ans".toList) = 0 := by
    rw [pairScore_eq_simScore,
      show pyStrip (pyLower "abcd".toList) = "abcd".toList from by decide,
      show pyStrip (pyLower "xyz".toList) = "xyz".toList from by decide,
      simScore_eval "abcd".toList "xyz".toList 7 0 (by decide) (by decide) (by decide)]
    norm_num
  have hfbme : find_best_match_extended "abcd".toList
      [("xyz".toList, "ans".toList)] = ([], [], 0) := by
    unfold find_best_match_extended
    rw [if_neg (by decide)]
    refine fbmeLoop_fixed "abcd".toList _ ([], [], 0) ?_
    intro p hp
    simp only [List.mem_cons, List.not_mem_nil, or_false] at hp
    rw [hp, hscore]
  exact ⟨hfbme, by rw [hfbme]; decide, hscore⟩

/-- C4 amended: the matcher scans in order with a strictly-greater update, so
the first pair to reach 0.95 is returned at once (later pairs unseen), below
0.95 the first pair attaining the maximum is returned provided that maximum is
positive, an all-zero scan returns the empty match with score 0.0 even over a
nonempty base, and the empty base returns the empty match. -/
theorem C4_scan_policy_amended (uq : Str) :
    find_best_match_extended uq [] = ([], [], 0) ∧
    (∀ (pre : List (Str × Str)) (q a : Str) (post : List (Str × Str)),
      (∀ p ∈ pre, pairScore uq p < (0.95 : ℚ)) →
      (0.95 : ℚ) ≤ pairScore uq (q, a) →
      find_best_match_extended uq (pre ++ (q, a) :: post) =
        (q, a, pairScore uq (q, a))) ∧
    (∀ (pre : List (Str × Str)) (q a : Str) (post : List (Str × Str)),
      0 < pairScore uq (q, a) → pairScore uq (q, a) < (0.95 : ℚ) →
      (∀ p ∈ pre, pairScore uq p < pairScore uq (q, a)) →
      (∀ p ∈ post, pairScore uq p ≤ pairScore uq (q, a)) →
      find_best_match_extended uq (pre ++ (q, a) :: post) =
        (q, a, pairScore uq (q, a))) ∧
    (∀ ps : List (Str × Str), (∀ p ∈ ps, pairScore uq p = 0) →
      find_best_match_extended uq ps = ([], [], 0)) := by
  refine ⟨rfl, fun pre q a post hpre hq => ?_,
    fun pre q a post h0 h95 hpre hpost => ?_, fun ps hz => ?_⟩
  · unfold find_best_match_extended
    rw [if_neg (by simp)]
    exact fbmeLoop_break uq pre q a post ([], [], 0) (by norm_num) hpre hq
  · unfold find_best_match_extended
    rw [if_neg (by simp)]
    exact fbmeLoop_argmax uq pre q a post ([], [], 0) h0 h95 hpre hpost
  · cases ps with
    | nil => rfl
    | cons p0 rest =>
      unfold find_best_match_extended
      rw [if_neg (by simp)]
      exact fbmeLoop_fixed uq (p0 :: rest) ([], [], 0)
        (fun p hp => le_of_eq (hz p hp))

/-- Witness for C4's amended theorem: the first of two perfect-scoring pairs
wins through the early exit. -/
theorem C4_scan_policy_amended_witness :
    (0.95 : ℚ) ≤ pairScore "ab".toList ("ab".toList, "x".toList) ∧
    find_best_match_extended "ab".toList
      [("ab".toList, "x".toList), ("ab".toList, "y".toList)] =
      ("ab".toList, "x".toList, pairScore "ab".toList ("ab".toList, "x".toList)) := by
  have h1 : pairScore "ab".toList ("ab".toList, "x".toList) = 1 :=
    pairScore_self "ab".toList "x".toList
  constructor
  · rw [h1]; norm_num
  · exact (C4_scan_policy_amended "ab".toList).2.1 [] "ab".toList "x".toList
      [("ab".toList, "y".toList)]
      (fun p hp => absurd hp (List.not_mem_nil p)) (by rw [h1]; norm_num)

-- Claim C6.

/-- File system for the C6 counterexample: the first stored question is one
character short of the user question and scores 20/21 ≥ 0.95, the second is
the exact duplicate. -/
def fsC6 : FS := fun path =>
  if path = "knowledge.txt".toList then
    some ["aaaaaaaaaa".toList, "aaaaaaaaaaa".toList]
  else if path = "knowledge1.txt".toList then
    some ["ans1".toList, "ans2".toList]
  else none

/-- File system for the second C6 counterexample input: the knowledge base
holds the user's exact three-character question. -/
def fsC6b : FS := fun path =>
  if path = "knowledge.txt".toList then some ["abc".toList]
  else if path = "knowledge1.txt".toList then some ["stored".toList]
  else none

/-- C6 counterexample: a knowledge base containing the user's exact question
for which the score is not 1.0 and the returned answer is an earlier,
near-matching pair's answer (the 0.95 early exit fires first); and a
three-character exact-duplicate question for which the pre-filter answers the
refusal instead of the stored answer. -/
theorem C6_exact_dup_refuted :
    ("aaaaaaaaaaa".toList, "ans2".toList) ∈
      load_qa_pairs_core fsC6 "knowledge.txt".toList "knowledge1.txt".toList ∧
    (find_best_match_extended "aaaaaaaaaaa".toList
      (load_qa_pairs_core fsC6 "knowledge.txt".toList "knowledge1.txt".toList)).2.2 ≠
      1 ∧
    (ask_assistant fsC6 apiDown "aaaaaaaaaaa".toList "knowledge.txt".toList
      "knowledge1.txt".toList).1 = "ans1".toList ∧
    "ans1".toList ≠ "ans2".toList ∧
    ("abc".toList, "stored".toList) ∈
      load_qa_pairs_core fsC6b "knowledge.txt".toList "knowledge1.txt".toList ∧
    (ask_assistant fsC6b apiDown "abc".toList "knowledge.txt".toList
      "knowledge1.txt".toList).1 = DEFAULT_RESPONSE ∧
    DEFAULT_RESPONSE ≠ "stored".toList := by
  have hload : load_qa_pairs_core fsC6 "knowledge.txt".toList "knowledge1.txt".toList =
      [("aaaaaaaaaa".toList, "ans1".toList), ("aaaaaaaaaaa".toList, "ans2".toList)] :=
    by decide
  have hs1 : pairScore "aaaaaaaaaaa".toList ("aaaaaaaaaa".toList, "ans1".toList) =
      20 / 21 := by
    rw [pairScore_eq_simScore,
      show pyStrip (pyLower "aaaaaaaaaaa".toList) = "aaaaaaaaaaa".toList from by decide,
      show pyStrip (pyLower "aaaaaaaaaa".toList) = "aaaaaaaaaa".toList from by decide,
      simScore_eval "aaaaaaaaaaa".toList "aaaaaaaaaa".toList 21 10
        (by decide) (by decide) (by decide)]
    norm_num
  have hfbme : find_best_match_extended "aaaaaaaaaaa".toList
      [("aaaaaaaaaa".toList, "ans1".toList), ("aaaaaaaaaaa".toList, "ans2".toList)] =
      ("aaaaaaaaaa".toList, "ans1".toList, 20 / 21) := by
    unfold find_best_match_extended
    rw [if_neg (by decide)]
    have hb := fbmeLoop_break "aaaaaaaaaaa".toList [] "aaaaaaaaaa".toList
      "ans1".toList [("aaaaaaaaaaa".toList, "ans2".toList)] ([], [], 0)
      (by norm_num) (fun p hp => absurd hp (List.not_mem_nil p))
      (by rw [hs1]; norm_num)
    rw [List.nil_append] at hb
    rw [hb, hs1]
  have hask : ask_assistant fsC6 apiDown "aaaaaaaaaaa".toList "knowledge.txt".toList
      "knowledge1.txt".toList = ("ans1".toList, 1, 0) := by
    rw [ask_assistant, if_neg (by decide), if_neg (by decide), hload, hfbme]
    show (if ("ans1".toList : Str).isEmpty = true then (DEFAULT_RESPONSE, 1, 0)
      else match generate_smart_response apiDown "aaaaaaaaaaa".toList
          "aaaaaaaaaa".toList "ans1".toList (20 / 21) with
        | (answer, apiCalls) => (answer, 1, apiCalls)) = ("ans1".toList, 1, 0)
    rw [if_neg (by decide)]
    rw [show generate_smart_response apiDown "aaaaaaaaaaa".toList "aaaaaaaaaa".toList
        "ans1".toList (20 / 21) = ("ans1".toList, 0) from by
      rw [generate_smart_response,
        if_pos (by norm_num [SIMILARITY_GOOD] : SIMILARITY_GOOD ≤ (20 / 21 : ℚ))]]
  refine ⟨by rw [hload]; decide, ?_, by rw [hask], by decide, by decide, by decide,
    by decide⟩
  rw [hload, hfbme]
  show (20 / 21 : ℚ) ≠ 1
  norm_num

/-- C6 amended: when the exact duplicate of the user's (processable) question
is the first pair of the knowledge base to reach a score of 0.95 — in
particular when no earlier pair scores that high — the similarity score is
exactly 1.0 and the assistant returns that pair's stored answer verbatim with
no API call. -/
theorem C6_exact_dup_amended (fs : FS) (api : Api) (uq qp ap : Str)
    (pre post : List (Str × Str)) (a : Str)
    (hsp : should_process uq = true)
    (hload : load_qa_pairs_core fs qp ap = pre ++ (uq, a) :: post)
    (hpre : ∀ p ∈ pre, pairScore uq p < (0.95 : ℚ)) :
    find_best_match_extended uq (load_qa_pairs_core fs qp ap) = (uq, a, 1) ∧
    ask_assistant fs api uq qp ap = (a, 1, 0) := by
  have hane : a ≠ [] := by
    have hmem : (uq, a) ∈ load_qa_pairs_core fs qp ap := by
      rw [hload]
      exact List.mem_append_right _ (List.mem_cons_self _ _)
    exact load_answer_ne_nil fs qp ap (uq, a) hmem
  have haneb : a.isEmpty = false := by
    cases e : a.isEmpty with
    | false => rfl
    | true => exact absurd (List.isEmpty_iff.mp e) hane
  have hscore : pairScore uq (uq, a) = 1 := pairScore_self uq a
  have hfbme : find_best_match_extended uq (load_qa_pairs_core fs qp ap) =
      (uq, a, 1) := by
    rw [hload]
    unfold find_best_match_extended
    rw [if_neg (by simp)]
    rw [fbmeLoop_break uq pre uq a post ([], [], 0) (by norm_num) hpre
      (by rw [hscore]; norm_num), hscore]
  refine ⟨hfbme, ?_⟩
  have hlen : (pyStrip uq).length > 3 := by
    have hsp2 : (decide ((pyLower (pyStrip uq)).length > 3) &&
        !(["спасибо".toList, "привет".toList, "здравствуйте".toList].contains
          (pyLower (pyStrip uq)))) = true := hsp
    have := of_decide_eq_true (Bool.and_eq_true_iff.mp hsp2).1
    rwa [pyLower, List.length_map] at this
  have hne : (pyStrip uq).isEmpty = false := by
    cases e : (pyStrip uq).isEmpty with
    | false => rfl
    | true =>
      rw [List.isEmpty_iff.mp e] at hlen
      simp at hlen
  rw [ask_assistant, if_neg (by simp [hne]), if_neg (by simp [hsp]), hfbme]
  show (if a.isEmpty = true then (DEFAULT_RESPONSE, 1, 0)
    else match generate_smart_response api uq uq a 1 with
      | (answer, apiCalls) => (answer, 1, apiCalls)) = (a, 1, 0)
  rw [if_neg (by simp [haneb])]
  rw [show generate_smart_response api uq uq a 1 = (a, 0) from by
    rw [generate_smart_response,
      if_pos (by norm_num [SIMILARITY_GOOD] : SIMILARITY_GOOD ≤ (1 : ℚ))]]

/-- File system for the C6 witness: one stored pair, its question the exact
duplicate of the user question. -/
def fsC6w : FS := fun path =>
  if path = "knowledge.txt".toList then some ["расписание".toList]
  else if path = "knowledge1.txt".toList then some ["Ответ".toList]
  else none

/-- Witness for C6's amended theorem on a one-pair exact-duplicate base. -/
theorem C6_exact_dup_amended_witness :
    find_best_match_extended "расписание".toList
      (load_qa_pairs_core fsC6w "knowledge.txt".toList "knowledge1.txt".toList) =
      ("расписание".toList, "Ответ".toList, 1) ∧
    ask_assistant fsC6w apiDown "расписание".toList "knowledge.txt".toList
      "knowledge1.txt".toList = ("Ответ".toList, 1, 0) :=
  C6_exact_dup_amended fsC6w apiDown "расписание".toList "knowledge.txt".toList
    "knowledge1.txt".toList [] [] "Ответ".toList (by decide) (by decide)
    (fun p hp => absurd hp (List.not_mem_nil p))

end Chats
